import Mathlib

/-!
Shallow embedding of the kiln scrape-orchestration core
(internal/scraper/scraper.go, internal/scraper/progress.go,
internal/server/server.go) and proofs of the frozen claims about it.

Effectful collaborators (the browser session, the readability library,
the article store, the cancellation context) are modelled as oracle
fields of an environment record; the control flow, state updates and
emitted progress events are translated statement by statement from the
Go source.
-/

namespace Kiln

/-- Opaque model of Go `time.Time`: only equality and the zero test
matter to the scraper code. -/
structure GoTime where
  ticks : Nat
deriving DecidableEq, Repr

/-- Model of `time.Time.IsZero`. -/
def GoTime.isZero (t : GoTime) : Bool :=
  t.ticks == 0

/-- Status constants `ProgressStatus` from progress.go. -/
inductive ProgressStatus where
  | starting
  | loggingIn
  | scraping
  | completed
  | failed
  | cancelled
deriving DecidableEq, Repr

/-- Struct `ProgressUpdate` from progress.go. -/
structure ProgressUpdate where
  status : ProgressStatus
  message : String
  currentItem : Nat
  totalItems : Nat
  articlesAdded : Nat
  newArticleID : Nat
  timestamp : GoTime
deriving DecidableEq, Repr

/-- Struct `ProgressTracker` from progress.go: the current snapshot, one
bounded FIFO queue per subscriber channel, and the active flag. -/
structure ProgressTracker where
  current : ProgressUpdate
  listeners : List (List ProgressUpdate)
  active : Bool
deriving DecidableEq, Repr

/-- Capacity of a subscriber channel (`make(chan ProgressUpdate, 10)`). -/
def chanCapacity : Nat := 10

/-- Constructor `NewProgressTracker`. -/
def newProgressTracker (t0 : GoTime) : ProgressTracker :=
  { current := { status := ProgressStatus.starting, message := "",
                 currentItem := 0, totalItems := 0, articlesAdded := 0,
                 newArticleID := 0, timestamp := t0 }
    listeners := []
    active := false }

/-- Method `ProgressTracker.Update`: stamp the update with the current time,
replace the snapshot wholesale, and fan the stamped value out to every
listener whose channel is not full (drop-on-full). -/
def ProgressTracker.update (pt : ProgressTracker) (now : GoTime)
    (u : ProgressUpdate) : ProgressTracker :=
  let u' := { u with timestamp := now }
  { pt with
    current := u'
    listeners := pt.listeners.map fun ch =>
      if ch.length < chanCapacity then ch ++ [u'] else ch }

/-- Method `ProgressTracker.UpdateStatus`: copy the current snapshot, change
only status and message, and pass it to `update`. -/
def ProgressTracker.updateStatus (pt : ProgressTracker) (now : GoTime)
    (st : ProgressStatus) (msg : String) : ProgressTracker :=
  pt.update now { pt.current with status := st, message := msg }

/-- Method `ProgressTracker.UpdateProgress`: copy the current snapshot, change
only the item counts and message, and pass it to `update`. -/
def ProgressTracker.updateProgress (pt : ProgressTracker) (now : GoTime)
    (cur total : Nat) (msg : String) : ProgressTracker :=
  pt.update now { pt.current with currentItem := cur, totalItems := total,
                                  message := msg }

/-- Method `ProgressTracker.GetCurrent`. -/
def ProgressTracker.getCurrent (pt : ProgressTracker) : ProgressUpdate :=
  pt.current

/-- Method `ProgressTracker.Subscribe`: register a fresh channel, immediately
send the current snapshot into it, and hand the channel (here: its
index) back to the caller. -/
def ProgressTracker.subscribe (pt : ProgressTracker) :
    ProgressTracker × Nat :=
  ({ pt with listeners := pt.listeners ++ [[pt.current]] },
   pt.listeners.length)

/-- Method `ProgressTracker.SetActive`. -/
def ProgressTracker.setActive (pt : ProgressTracker) (b : Bool) :
    ProgressTracker :=
  { pt with active := b }

/-- Method `ProgressTracker.IsActive`. -/
def ProgressTracker.isActive (pt : ProgressTracker) : Bool :=
  pt.active

/-- Record `database.Article` (internal/database/articles.go); the
store-assigned audit timestamps are zero until persistence. -/
structure Article where
  id : Nat
  source : String
  url : String
  title : Option String
  author : Option String
  publishedAt : Option GoTime
  contentHTML : Option String
  contentText : Option String
  createdAt : GoTime
  updatedAt : GoTime
deriving DecidableEq, Repr

/-- Result of the readability extraction
(`readability.FromReader`): candidate title, byline, HTML body,
text body, and an optional structured published time. -/
structure ReadabilityResult where
  title : String
  byline : String
  content : String
  textContent : String
  publishedTime : Option GoTime
deriving DecidableEq, Repr

/-- An element found on a page, as far as `extractDate` inspects it:
its `datetime` attribute, its `content` attribute, and its text. -/
structure PageElem where
  datetimeAttr : Option String
  contentAttr : Option String
  text : Option String
deriving DecidableEq, Repr

/-- Go layout constant `time.RFC3339`. -/
def rfc3339 : String := "2006-01-02T15:04:05Z07:00"

/-- The fixed selector list of `extractDate`, in scan order. -/
def dateSelectors : List String :=
  ["time.post-date[datetime]",
   "time.entry-date[datetime]",
   "time[datetime]",
   "meta[property=\"article:published_time\"]",
   ".post-date",
   "[class*=\"date\"]"]

/-- The fixed layout list tried against a `datetime` attribute. -/
def datetimeFormats : List String :=
  [rfc3339, "2006-01-02", "2006-01-02T15:04:05"]

/-- The fixed layout list tried against an element's text. -/
def textFormats : List String :=
  ["2 January 2006",
   "2 January, 2006",
   "January 2, 2006",
   "2006-01-02",
   "02 Jan 2006"]

/-- Text clean-up before parsing: `strings.TrimSpace` then removal of
every comma. -/
def cleanDateText (s : String) : String :=
  (s.trim).replace "," ""

/-- The inner loop of `extractDate`: try the layouts in order against
one string; the first successful parse wins.  `parse` is the oracle for
Go `time.Parse` (layout, value). -/
def tryFormats (parse : String → String → Option GoTime) :
    List String → String → Option GoTime
  | [], _ => none
  | fmt :: rest, s =>
    match parse fmt s with
    | some t => some t
    | none => tryFormats parse rest s

/-- What `extractDate` does with one found element: `datetime`
attribute against `datetimeFormats`, then `content` attribute against
RFC3339, then cleaned text against `textFormats`. -/
def tryElem (parse : String → String → Option GoTime) (el : PageElem) :
    Option GoTime :=
  match (match el.datetimeAttr with
         | some s => tryFormats parse datetimeFormats s
         | none => none) with
  | some t => some t
  | none =>
    match (match el.contentAttr with
           | some s => parse rfc3339 s
           | none => none) with
    | some t => some t
    | none =>
      match el.text with
      | some s => tryFormats parse textFormats (cleanDateText s)
      | none => none

/-- The outer loop of `extractDate` over the selector list; `find` is
the oracle for `page.Element` (first matching element or failure). -/
def extractDateLoop (parse : String → String → Option GoTime)
    (find : String → Option PageElem) :
    List String → Option GoTime
  | [] => none
  | sel :: rest =>
    match find sel with
    | none => extractDateLoop parse find rest
    | some el =>
      match tryElem parse el with
      | some t => some t
      | none => extractDateLoop parse find rest

/-- Function `extractDate` from scraper.go. -/
def extractDate (parse : String → String → Option GoTime)
    (find : String → Option PageElem) : Option GoTime :=
  extractDateLoop parse find dateSelectors

/-- The article-construction tail of `scrapeArticle`
(scraper.go lines 479-509): the HTML and text bodies are taken
unconditionally from the readability result, title and byline only when
non-empty, and the published time with readability-first precedence,
falling back to the manual date scan. -/
def buildArticle (articleURL : String) (r : ReadabilityResult)
    (manual : Option GoTime) : Article :=
  let a : Article :=
    { id := 0, source := "gasetten", url := articleURL,
      title := none, author := none, publishedAt := none,
      contentHTML := some r.content, contentText := some r.textContent,
      createdAt := ⟨0⟩, updatedAt := ⟨0⟩ }
  let a := if r.title = "" then a else { a with title := some r.title }
  let a := if r.byline = "" then a else { a with author := some r.byline }
  match r.publishedTime with
  | some t =>
    if t.isZero then
      match manual with
      | some m => { a with publishedAt := some m }
      | none => a
    else
      { a with publishedAt := some t }
  | none =>
    match manual with
    | some m => { a with publishedAt := some m }
    | none => a

/-- The success path of `scrapeArticle`: readability result plus the
manual date fallback. -/
def scrapeArticleModel (parse : String → String → Option GoTime)
    (find : String → Option PageElem) (articleURL : String)
    (r : ReadabilityResult) : Article :=
  buildArticle articleURL r (extractDate parse find)

/-- Occurrence of a needle inside a haystack, over character lists. -/
def charsContain (needle : List Char) : List Char → Bool
  | [] => needle.isEmpty
  | c :: rest => needle.isPrefixOf (c :: rest) || charsContain needle rest

/-- Go `strings.Contains`. -/
def goContains (s sub : String) : Bool :=
  charsContain sub.toList s.toList

/-- Go `strings.HasPrefix`. -/
def goStarts (s pat : String) : Bool :=
  List.isPrefixOf pat.toList s.toList

/-- Go `strings.HasSuffix`. -/
def goEnds (s pat : String) : Bool :=
  List.isSuffixOf pat.toList s.toList

/-- Go `strings.TrimSuffix`: remove one occurrence of the suffix if
present. -/
def goTrimEnd (s suff : String) : String :=
  if goEnds s suff then
    String.mk (s.toList.take (s.toList.length - suff.toList.length))
  else s

/-- Go `strings.TrimPrefix`: remove one occurrence of the leading
pattern if present. -/
def goTrimStart (s pat : String) : String :=
  if goStarts s pat then String.mk (s.toList.drop pat.toList.length)
  else s

/-- Split on `'/'`, keeping empty pieces, exactly like Go
`strings.Split(s, "/")`; `cur` collects the current piece reversed. -/
def splitSlashAux : List Char → List Char → List String
  | [], cur => [String.mk cur.reverse]
  | c :: rest, cur =>
    if c = '/' then String.mk cur.reverse :: splitSlashAux rest []
    else splitSlashAux rest (c :: cur)

/-- Go `strings.Split(s, "/")`. -/
def goSplitSlash (s : String) : List String :=
  splitSlashAux s.toList []

/-- Relative-to-absolute normalization of an href
(scraper.go lines 390-392). -/
def normalizeHref (href : String) : String :=
  if goStarts href "/" then "https://gasetten.se" ++ href else href

/-- The denylist test of `extractArticleLinks`
(scraper.go lines 401-416), one disjunct per source clause. -/
def isExcluded (url : String) : Bool :=
  goContains url "/author/" ||
  goContains url "/tag/" ||
  goContains url "/category/" ||
  goContains url "/page/" ||
  goContains url "/wp-content/" ||
  goContains url "/wp-login" ||
  goContains url "/min-profil" ||
  goContains url "/about" ||
  goContains url "/arkiv" ||
  goContains url "/stotta-oss" ||
  goContains url "/annonsera" ||
  goContains url "/registrera" ||
  goContains url "/kop-plus" ||
  goEnds url "gasetten.se/" ||
  goEnds url "gasetten.se/#"

/-- The path-segment split of `extractArticleLinks`
(scraper.go line 420): trim one trailing slash, trim the origin, split
on slashes.  Empty segments are kept, exactly as `strings.Split` does. -/
def articleParts (url : String) : List String :=
  goSplitSlash (goTrimStart (goTrimEnd url "/") "https://gasetten.se/")

/-- The complete per-URL filter of `extractArticleLinks`: origin check,
denylist, then at least two path segments. -/
def keepLink (url : String) : Bool :=
  goStarts url "https://gasetten.se/" &&
  !(isExcluded url) &&
  decide (2 ≤ (articleParts url).length)

/-- The anchor loop of `extractArticleLinks`: each href (absent when
the attribute lookup failed) is normalized, filtered, and appended
unless already seen; `acc` plays the role of both the `links` slice and
the `seen` set. -/
def extractLoop : List (Option String) → List String → List String
  | [], acc => acc
  | none :: rest, acc => extractLoop rest acc
  | some h :: rest, acc =>
    let url := normalizeHref h
    if keepLink url && !(acc.contains url) then
      extractLoop rest (acc ++ [url])
    else
      extractLoop rest acc

/-- Function `extractArticleLinks` from scraper.go, over the sequence of anchor
hrefs found on the page. -/
def extractArticleLinks (hrefs : List (Option String)) : List String :=
  extractLoop hrefs []

/-- Reference first-seen deduplication, used to state that the
discoverer keeps first occurrences in order. -/
def dedupLoop : List String → List String → List String
  | [], acc => acc
  | x :: rest, acc =>
    if acc.contains x then dedupLoop rest acc
    else dedupLoop rest (acc ++ [x])

/-- First-seen deduplication of a list of URLs. -/
def firstSeenDedup (l : List String) : List String :=
  dedupLoop l []

/-- The normalized, filtered (but not yet deduplicated) candidate list
for a page: present hrefs, made absolute, passing `keepLink`. -/
def candidateLinks (hrefs : List (Option String)) : List String :=
  ((hrefs.filterMap id).map normalizeHref).filter keepLink

/-- Number of non-empty path segments of a filtered URL, the quantity
the specification's "non-empty path segments" clause is about. -/
def nonEmptySegs (url : String) : Nat :=
  ((articleParts url).filter (fun seg => !(seg == ""))).length

/-- Environment of one `ScrapeArticles` run: outcomes of every
effectful collaborator the orchestrator consults, in source order.
`articleExists`, `extract` and `create` are indexed by the loop
iteration so that any store/extractor behaviour is representable;
`ctxDoneAt i` is the cancellation signal read at the top of iteration
`i`. -/
structure ScrapeEnv where
  browserOk : Bool
  browserErr : String
  loginOk : Bool
  loginErr : String
  ctxDoneAfterLogin : Bool
  pageOk : Bool
  loadOk : Bool
  links : List String
  ctxDoneAt : Nat → Bool
  articleExists : Nat → String → Except Unit Bool
  extract : Nat → String → Except Unit Article
  create : Nat → Article → Except Unit Nat
  now : GoTime

/-- Result of the per-link loop: the running count of newly persisted
articles, the tracker, whether the loop returned through the
cancellation branch, and the progress events it emitted. -/
structure LoopOut where
  count : Nat
  tracker : ProgressTracker
  cancelled : Bool
  trace : List ProgressUpdate
deriving Repr

/-- Loop message `Processing article %d/%d...`. -/
def processingMsg (i total : Nat) : String :=
  "Processing article " ++ toString (i + 1) ++ "/" ++ toString total ++
  "..."

/-- Loop message `Article %d/%d already exists, skipping...`. -/
def skipMsg (i total : Nat) : String :=
  "Article " ++ toString (i + 1) ++ "/" ++ toString total ++
  " already exists, skipping..."

/-- Loop message `Operation cancelled. Scraped %d articles before
cancellation.`. -/
def cancelMsg (count : Nat) : String :=
  "Operation cancelled. Scraped " ++ toString count ++
  " articles before cancellation."

/-- The saved-article progress event of the loop. -/
def savedUpd (i total count newId : Nat) (now : GoTime) :
    ProgressUpdate :=
  { status := ProgressStatus.scraping
    message := "Saved article " ++ toString (i + 1) ++ "/" ++
      toString total ++ " (" ++ toString count ++ " new)"
    currentItem := i + 1
    totalItems := total
    articlesAdded := count
    newArticleID := newId
    timestamp := now }

/-- The per-link loop of `ScrapeArticles` (scraper.go lines 301-354):
cancellation check, progress event, existence check (errors and
existing URLs skip the item), extraction (errors skip the item),
persistence (errors skip the item), then the saved-article event. -/
def scrapeLoop (env : ScrapeEnv) (total : Nat) :
    List String → Nat → Nat → ProgressTracker → LoopOut
  | [], _, count, pt => ⟨count, pt, false, []⟩
  | link :: rest, i, count, pt =>
    if env.ctxDoneAt i then
      let pt' := pt.updateStatus env.now ProgressStatus.cancelled
        (cancelMsg count)
      ⟨count, pt', true, [pt'.current]⟩
    else
      let pt1 := pt.updateProgress env.now (i + 1) total
        (processingMsg i total)
      match env.articleExists i link with
      | Except.error _ =>
        let r := scrapeLoop env total rest (i + 1) count pt1
        ⟨r.count, r.tracker, r.cancelled, pt1.current :: r.trace⟩
      | Except.ok true =>
        let pt2 := pt1.updateProgress env.now (i + 1) total
          (skipMsg i total)
        let r := scrapeLoop env total rest (i + 1) count pt2
        ⟨r.count, r.tracker, r.cancelled,
         pt1.current :: pt2.current :: r.trace⟩
      | Except.ok false =>
        match env.extract i link with
        | Except.error _ =>
          let r := scrapeLoop env total rest (i + 1) count pt1
          ⟨r.count, r.tracker, r.cancelled, pt1.current :: r.trace⟩
        | Except.ok article =>
          match env.create i article with
          | Except.error _ =>
            let r := scrapeLoop env total rest (i + 1) count pt1
            ⟨r.count, r.tracker, r.cancelled, pt1.current :: r.trace⟩
          | Except.ok newId =>
            let pt2 := pt1.update env.now
              (savedUpd i total (count + 1) newId env.now)
            let r := scrapeLoop env total rest (i + 1) (count + 1) pt2
            ⟨r.count, r.tracker, r.cancelled,
             pt1.current :: pt2.current :: r.trace⟩

/-- The discovered-count progress event (`Found %d articles, starting
to scrape...`). -/
def foundUpd (total : Nat) (now : GoTime) : ProgressUpdate :=
  { status := ProgressStatus.scraping
    message := "Found " ++ toString total ++
      " articles, starting to scrape..."
    currentItem := 0
    totalItems := total
    articlesAdded := 0
    newArticleID := 0
    timestamp := now }

/-- The terminal completed event (`Completed! Added %d new
articles.`). -/
def completedUpd (total count : Nat) (now : GoTime) : ProgressUpdate :=
  { status := ProgressStatus.completed
    message := "Completed! Added " ++ toString count ++ " new articles."
    currentItem := total
    totalItems := total
    articlesAdded := count
    newArticleID := 0
    timestamp := now }

/-- Batch-fatal failure modes of `ScrapeArticles`, plus cooperative
cancellation (`ctx.Err()`). -/
inductive RunError where
  | browserInit
  | login
  | cancelled
  | pageCreate
  | pageLoad
deriving DecidableEq, Repr

/-- Result of one `ScrapeArticles` run: the returned count, the
returned error if any, the tracker after the deferred
`SetActive(false)`, and the emitted progress events. -/
structure RunOut where
  count : Nat
  err : Option RunError
  tracker : ProgressTracker
  trace : List ProgressUpdate
deriving Repr

/-- Function `ScrapeArticles` (scraper.go lines 243-365): mark active, emit
`starting`, initialize the browser, log in, check cancellation, load
the listing page, announce the discovered count, run the per-link loop,
and emit the terminal event; every exit path runs the deferred
`SetActive(false)`. -/
def scrapeArticles (env : ScrapeEnv) (pt0 : ProgressTracker) : RunOut :=
  let ptA := (pt0.setActive true).updateStatus env.now
    ProgressStatus.starting "Initializing browser..."
  if env.browserOk then
    let ptB := ptA.updateStatus env.now ProgressStatus.loggingIn
      "Logging into Gasetten..."
    if env.loginOk then
      if env.ctxDoneAfterLogin then
        let ptC := ptB.updateStatus env.now ProgressStatus.cancelled
          "Operation cancelled by user"
        ⟨0, some RunError.cancelled, ptC.setActive false,
         [ptA.current, ptB.current, ptC.current]⟩
      else
        let ptC := ptB.updateStatus env.now ProgressStatus.scraping
          "Loading article category page..."
        if env.pageOk then
          if env.loadOk then
            let ptD := ptC.updateStatus env.now ProgressStatus.scraping
              "Extracting article links..."
            let total := env.links.length
            let ptE := ptD.update env.now (foundUpd total env.now)
            let r := scrapeLoop env total env.links 0 0 ptE
            let pre := [ptA.current, ptB.current, ptC.current,
                        ptD.current, ptE.current]
            if r.cancelled then
              ⟨r.count, some RunError.cancelled,
               r.tracker.setActive false, pre ++ r.trace⟩
            else
              let ptF := r.tracker.update env.now
                (completedUpd total r.count env.now)
              ⟨r.count, none, ptF.setActive false,
               pre ++ r.trace ++ [ptF.current]⟩
          else
            let ptD := ptC.updateStatus env.now ProgressStatus.failed
              "Timeout waiting for category page"
            ⟨0, some RunError.pageLoad, ptD.setActive false,
             [ptA.current, ptB.current, ptC.current, ptD.current]⟩
        else
          let ptD := ptC.updateStatus env.now ProgressStatus.failed
            "Failed to load category page"
          ⟨0, some RunError.pageCreate, ptD.setActive false,
           [ptA.current, ptB.current, ptC.current, ptD.current]⟩
    else
      let ptC := ptB.updateStatus env.now ProgressStatus.failed
        ("Login failed: " ++ env.loginErr)
      ⟨0, some RunError.login, ptC.setActive false,
       [ptA.current, ptB.current, ptC.current]⟩
  else
    let ptB := ptA.updateStatus env.now ProgressStatus.failed
      ("Failed to initialize browser: " ++ env.browserErr)
    ⟨0, some RunError.browserInit, ptB.setActive false,
     [ptA.current, ptB.current]⟩

/-- A run environment in which the session, login and listing-page
phases all succeed; the per-item oracles are the parameters. -/
def okEnv (now : GoTime) (links : List String)
    (ex : Nat → String → Except Unit Bool)
    (extr : Nat → String → Except Unit Article)
    (cr : Nat → Article → Except Unit Nat)
    (cd : Nat → Bool) : ScrapeEnv :=
  { browserOk := true, browserErr := "", loginOk := true, loginErr := "",
    ctxDoneAfterLogin := false, pageOk := true, loadOk := true,
    links := links, ctxDoneAt := cd, articleExists := ex,
    extract := extr, create := cr, now := now }

/-- State shared between the HTTP handler and the batch goroutines:
the tracker's active flag, the number of batch tasks the handler has
spawned that have not yet executed their `SetActive(true)`, and the
number of batch tasks past that point and still running. -/
structure SysState where
  active : Bool
  pending : Nat
  running : Nat
deriving DecidableEq, Repr

/-- The two possible responses of `handleScrape`. -/
inductive ScrapeResponse where
  | alreadyInProgress
  | started
deriving DecidableEq, Repr

/-- Handler `handleScrape` (server.go lines 121-143): if the tracker is
active, answer with the already-in-progress notice and start nothing;
otherwise spawn the batch goroutine and return at once.  The handler
itself never touches the active flag — the spawned task sets it later,
as the first statement of `ScrapeArticles` (scraper.go line 245). -/
def handleScrape (s : SysState) : SysState × ScrapeResponse :=
  if s.active then (s, ScrapeResponse.alreadyInProgress)
  else ({ s with pending := s.pending + 1 }, ScrapeResponse.started)

/-- Events observable at this granularity: a scrape request reaching
the handler, a spawned batch task executing its `SetActive(true)`
(scraper.go line 245), or a batch task finishing — its deferred
`SetActive(false)` (scraper.go line 247). -/
inductive ServerEvent where
  | scrapeRequest
  | batchActivate
  | batchFinish
deriving DecidableEq, Repr

/-- One step of the server system. -/
def stepEvent (s : SysState) : ServerEvent → SysState
  | ServerEvent.scrapeRequest => (handleScrape s).1
  | ServerEvent.batchActivate =>
    if s.pending = 0 then s
    else { active := true, pending := s.pending - 1,
           running := s.running + 1 }
  | ServerEvent.batchFinish =>
    if s.running = 0 then s
    else { s with active := false, running := s.running - 1 }

/-- Server start-up state: nothing spawned, nothing running. -/
def initialSys : SysState :=
  { active := false, pending := 0, running := 0 }

/-- Executions in which no request is checked while a spawned batch has
yet to mark the tracker active: a `scrapeRequest` step is admitted only
when `pending = 0`, any other interleaving falls outside the class
(`none`).  This serialization is an assumption about the schedule, not
something the source code enforces. -/
def guardedRun : SysState → List ServerEvent → Option SysState
  | s, [] => some s
  | s, ServerEvent.scrapeRequest :: rest =>
    if s.pending = 0 then
      guardedRun (stepEvent s ServerEvent.scrapeRequest) rest
    else none
  | s, ServerEvent.batchActivate :: rest =>
    guardedRun (stepEvent s ServerEvent.batchActivate) rest
  | s, ServerEvent.batchFinish :: rest =>
    guardedRun (stepEvent s ServerEvent.batchFinish) rest

/-- A concrete extracted article for the run scenarios. -/
def sampleArticle (u : String) : Article :=
  { id := 0, source := "gasetten", url := u, title := none,
    author := none, publishedAt := none, contentHTML := some "h",
    contentText := some "t", createdAt := ⟨0⟩, updatedAt := ⟨0⟩ }

/-- C1 scenario environment: three discovered links, the extractor
failing on the second. -/
def envC1 : ScrapeEnv :=
  okEnv ⟨1⟩ ["u1", "u2", "u3"] (fun _ _ => Except.ok false)
    (fun i u => if i = 0 ∨ i = 2 then Except.ok (sampleArticle u)
                else Except.error ())
    (fun i _ => Except.ok (if i = 0 then 5 else 9))
    (fun _ => false)

/-- The C1 run, from a fresh tracker. -/
def outC1 : RunOut := scrapeArticles envC1 (newProgressTracker ⟨0⟩)

/-- C2 scenario environment: five discovered links, the cancellation
signal set from the second iteration on. -/
def envC2 : ScrapeEnv :=
  okEnv ⟨1⟩ ["u1", "u2", "u3", "u4", "u5"] (fun _ _ => Except.ok false)
    (fun i u => if i = 0 then Except.ok (sampleArticle u)
                else Except.error ())
    (fun _ _ => Except.ok 5)
    (fun i => decide (1 ≤ i))

/-- The C2 run, from a fresh tracker. -/
def outC2 : RunOut := scrapeArticles envC2 (newProgressTracker ⟨0⟩)

/-- C3 scenario environment: three discovered links, the store
reporting the second as already present. -/
def envC3 : ScrapeEnv :=
  okEnv ⟨1⟩ ["u1", "u2", "u3"] (fun i _ => Except.ok (decide (i = 1)))
    (fun _ u => Except.ok (sampleArticle u))
    (fun i _ => Except.ok (if i = 0 then 5 else 9))
    (fun _ => false)

/-- The C3 run, from a fresh tracker. -/
def outC3 : RunOut := scrapeArticles envC3 (newProgressTracker ⟨0⟩)

/-- A one-link environment in which everything succeeds, used for the
run-invariant scenarios. -/
def envOneLink : ScrapeEnv :=
  okEnv ⟨1⟩ ["u"] (fun _ _ => Except.ok false)
    (fun _ u => Except.ok (sampleArticle u))
    (fun _ _ => Except.ok 7) (fun _ => false)

/-- First success in an ordered list of attempts. -/
def firstSome {α : Type} : List (Option α) → Option α
  | [] => none
  | some a :: _ => some a
  | none :: rest => firstSome rest

/-- Forward order of the status machine: `starting` before
`logging_in` before `scraping` before the terminal statuses. -/
def statusRank : ProgressStatus → Nat
  | ProgressStatus.starting => 0
  | ProgressStatus.loggingIn => 1
  | ProgressStatus.scraping => 2
  | ProgressStatus.completed => 3
  | ProgressStatus.failed => 3
  | ProgressStatus.cancelled => 3

/-- Terminal statuses end a run. -/
def isTerminal : ProgressStatus → Bool
  | ProgressStatus.completed => true
  | ProgressStatus.failed => true
  | ProgressStatus.cancelled => true
  | _ => false

/-- Invariant of guarded executions: at most one batch task is live —
spawned-but-inactive or running — and when the tracker is inactive with
nothing pending, nothing runs. -/
def sysInv (s : SysState) : Prop :=
  s.pending + s.running ≤ 1
  ∧ (s.active = false → s.pending = 0 → s.running = 0)

/-- Executable check that emitted item indices never decrease. -/
def ciMonotone : List ProgressUpdate → Bool
  | [] => true
  | [_] => true
  | a :: b :: rest =>
    decide (a.currentItem ≤ b.currentItem) && ciMonotone (b :: rest)

/-! ### Helper lemmas -/

/-- One `update` keeps the head of any listener channel: the channel
either gains the new event at its back or is left alone. -/
lemma update_head_stable (st : ProgressTracker) (now : GoTime)
    (u : ProgressUpdate) (i : Nat) (snap : ProgressUpdate)
    (h : ∃ rest, st.listeners[i]? = some (snap :: rest)) :
    ∃ rest', (st.update now u).listeners[i]? = some (snap :: rest') := by
  obtain ⟨rest, h⟩ := h
  unfold ProgressTracker.update
  simp only [List.getElem?_map, h, Option.map_some']
  by_cases hl : (snap :: rest).length < chanCapacity
  · exact ⟨rest ++ [{ u with timestamp := now }],
      by simp only [if_pos hl]; simp⟩
  · exact ⟨rest, by simp only [if_neg hl]⟩

/-- A whole sequence of updates keeps the head of a listener channel. -/
lemma foldl_head_stable (upds : List (GoTime × ProgressUpdate)) :
    ∀ (st : ProgressTracker) (i : Nat) (snap : ProgressUpdate),
    (∃ rest, st.listeners[i]? = some (snap :: rest)) →
    ∃ rest,
      (upds.foldl (fun st p => st.update p.1 p.2) st).listeners[i]? =
        some (snap :: rest) := by
  induction upds with
  | nil => intro st i snap h; exact h
  | cons p ps ih =>
    intro st i snap h
    exact ih _ i snap (update_head_stable st p.1 p.2 i snap h)

/-- A request checked while nothing is pending preserves the
invariant. -/
lemma stepEvent_inv_request (s : SysState) (h : sysInv s)
    (hp : s.pending = 0) :
    sysInv (stepEvent s ServerEvent.scrapeRequest) := by
  obtain ⟨h1, h2⟩ := h
  by_cases ha : s.active
  · simpa [stepEvent, handleScrape, ha] using ⟨h1, h2⟩
  · simp only [Bool.not_eq_true] at ha
    have hr := h2 ha hp
    constructor
    · simp [stepEvent, handleScrape, ha]; omega
    · simp [stepEvent, handleScrape, ha, hp]

/-- A spawned batch task marking the tracker active preserves the
invariant. -/
lemma stepEvent_inv_activate (s : SysState) (h : sysInv s) :
    sysInv (stepEvent s ServerEvent.batchActivate) := by
  obtain ⟨h1, h2⟩ := h
  by_cases hp : s.pending = 0
  · simpa [stepEvent, hp] using ⟨h1, h2⟩
  · constructor
    · simp [stepEvent, hp]; omega
    · simp [stepEvent, hp]

/-- A batch task finishing preserves the invariant. -/
lemma stepEvent_inv_finish (s : SysState) (h : sysInv s) :
    sysInv (stepEvent s ServerEvent.batchFinish) := by
  obtain ⟨h1, h2⟩ := h
  by_cases hr : s.running = 0
  · simpa [stepEvent, hr] using ⟨h1, h2⟩
  · constructor
    · simp [stepEvent, hr]; omega
    · simp [stepEvent, hr]
      intro hp
      omega

/-- Along any guarded execution the invariant is maintained. -/
lemma guardedRun_inv (evs : List ServerEvent) :
    ∀ s s' : SysState, sysInv s → guardedRun s evs = some s' →
      sysInv s' := by
  induction evs with
  | nil =>
    intro s s' h hg
    simp only [guardedRun, Option.some.injEq] at hg
    subst hg
    exact h
  | cons e rest ih =>
    intro s s' h hg
    cases e with
    | scrapeRequest =>
      by_cases hp : s.pending = 0
      · simp only [guardedRun, hp, if_true] at hg
        exact ih _ s' (stepEvent_inv_request s h hp) hg
      · simp only [guardedRun, hp, if_false] at hg
        exact absurd hg (by simp)
    | batchActivate =>
      simp only [guardedRun] at hg
      exact ih _ s' (stepEvent_inv_activate s h) hg
    | batchFinish =>
      simp only [guardedRun] at hg
      exact ih _ s' (stepEvent_inv_finish s h) hg

/-- Function `firstSome` yields nothing exactly when every attempt failed. -/
lemma firstSome_eq_none {α : Type} :
    ∀ l : List (Option α), firstSome l = none ↔ ∀ o ∈ l, o = none := by
  intro l
  induction l with
  | nil => simp [firstSome]
  | cons o rest ih =>
    cases o with
    | none => simpa [firstSome] using ih
    | some a => simp [firstSome]

/-- The layout loop is the first successful parse over the ordered
layout list. -/
lemma tryFormats_eq_firstSome (parse : String → String → Option GoTime)
    (s : String) :
    ∀ fmts : List String,
      tryFormats parse fmts s = firstSome (fmts.map fun f => parse f s) := by
  intro fmts
  induction fmts with
  | nil => rfl
  | cons f rest ih =>
    cases hf : parse f s with
    | none => simpa [tryFormats, firstSome, hf] using ih
    | some t => simp [tryFormats, firstSome, hf]

/-- The selector loop is the first selector whose element yields a
parse. -/
lemma extractDateLoop_eq_firstSome (parse : String → String → Option GoTime)
    (find : String → Option PageElem) :
    ∀ sels : List String,
      extractDateLoop parse find sels =
        firstSome (sels.map fun sel => (find sel).bind (tryElem parse)) := by
  intro sels
  induction sels with
  | nil => rfl
  | cons sel rest ih =>
    cases hf : find sel with
    | none => simpa [extractDateLoop, firstSome, hf] using ih
    | some el =>
      cases ht : tryElem parse el with
      | none => simpa [extractDateLoop, firstSome, hf, ht] using ih
      | some t => simp [extractDateLoop, firstSome, hf, ht]

/-- The published-at field of a built article: readability first when
present and non-zero, else the manual result. -/
lemma buildArticle_publishedAt (articleURL : String)
    (r : ReadabilityResult) (manual : Option GoTime) :
    (buildArticle articleURL r manual).publishedAt =
      (match r.publishedTime with
       | some t => if t.isZero then manual else some t
       | none => manual) := by
  unfold buildArticle
  rcases r.publishedTime with _ | t <;> rcases manual with _ | m <;>
    by_cases h1 : r.title = "" <;> by_cases h2 : r.byline = "" <;>
    simp [h1, h2] <;> split_ifs <;> rfl

/-- The title of a built article: set only when readability produced a
non-empty title. -/
lemma buildArticle_title (articleURL : String) (r : ReadabilityResult)
    (manual : Option GoTime) :
    (buildArticle articleURL r manual).title =
      (if r.title = "" then none else some r.title) := by
  unfold buildArticle
  rcases r.publishedTime with _ | t <;> rcases manual with _ | m <;>
    by_cases h1 : r.title = "" <;> by_cases h2 : r.byline = "" <;>
    simp [h1, h2] <;> split_ifs <;> rfl

/-- The author of a built article: set only when readability produced a
non-empty byline. -/
lemma buildArticle_author (articleURL : String) (r : ReadabilityResult)
    (manual : Option GoTime) :
    (buildArticle articleURL r manual).author =
      (if r.byline = "" then none else some r.byline) := by
  unfold buildArticle
  rcases r.publishedTime with _ | t <;> rcases manual with _ | m <;>
    by_cases h1 : r.title = "" <;> by_cases h2 : r.byline = "" <;>
    simp [h1, h2] <;> split_ifs <;> rfl

/-- The body fields of a built article are always set from the
readability result. -/
lemma buildArticle_bodies (articleURL : String) (r : ReadabilityResult)
    (manual : Option GoTime) :
    (buildArticle articleURL r manual).contentHTML = some r.content
    ∧ (buildArticle articleURL r manual).contentText =
        some r.textContent := by
  unfold buildArticle
  rcases r.publishedTime with _ | t <;> rcases manual with _ | m <;>
    by_cases h1 : r.title = "" <;> by_cases h2 : r.byline = "" <;>
    simp [h1, h2] <;> split_ifs <;> exact ⟨rfl, rfl⟩

/-- Unfolding of the candidate list over the first anchor. -/
lemma candidateLinks_cons_none (rest : List (Option String)) :
    candidateLinks (none :: rest) = candidateLinks rest := by
  simp [candidateLinks, List.filterMap_cons]

/-- Unfolding of the candidate list over a present href. -/
lemma candidateLinks_cons_some (s : String) (rest : List (Option String)) :
    candidateLinks (some s :: rest) =
      if keepLink (normalizeHref s) then
        normalizeHref s :: candidateLinks rest
      else candidateLinks rest := by
  by_cases hk : keepLink (normalizeHref s) = true
  · simp only [candidateLinks, List.filterMap_cons, id, List.map_cons,
      List.filter_cons, hk, if_pos]
  · simp only [Bool.not_eq_true] at hk
    simp only [candidateLinks, List.filterMap_cons, id, List.map_cons,
      List.filter_cons, hk, if_neg, Bool.false_eq_true, not_false_iff]

/-- One step of the deduplication loop. -/
lemma dedupLoop_cons (x : String) (rest acc : List String) :
    dedupLoop (x :: rest) acc =
      if acc.contains x then dedupLoop rest acc
      else dedupLoop rest (acc ++ [x]) := rfl

/-- One step of the anchor loop over a present href. -/
lemma extractLoop_cons_some (s : String) (rest : List (Option String))
    (acc : List String) :
    extractLoop (some s :: rest) acc =
      if keepLink (normalizeHref s) && !(acc.contains (normalizeHref s))
      then extractLoop rest (acc ++ [normalizeHref s])
      else extractLoop rest acc := rfl

/-- The fused anchor loop equals normalize-filter followed by
first-seen deduplication, from any accumulator. -/
lemma extractLoop_eq_dedupLoop :
    ∀ (hrefs : List (Option String)) (acc : List String),
      extractLoop hrefs acc = dedupLoop (candidateLinks hrefs) acc := by
  intro hrefs
  induction hrefs with
  | nil => intro acc; rfl
  | cons h rest ih =>
    intro acc
    cases h with
    | none =>
      rw [candidateLinks_cons_none]
      exact ih acc
    | some s =>
      rw [extractLoop_cons_some, candidateLinks_cons_some]
      by_cases hk : keepLink (normalizeHref s) = true
      · rw [if_pos hk, dedupLoop_cons]
        by_cases hx : normalizeHref s ∈ acc
        · have hc : acc.contains (normalizeHref s) = true :=
            List.elem_iff.2 hx
          rw [hc, hk]
          simpa using ih acc
        · have hc : acc.contains (normalizeHref s) = false := by
            simpa using hx
          rw [hc, hk]
          simpa using ih (acc ++ [normalizeHref s])
      · simp only [Bool.not_eq_true] at hk
        rw [hk]
        simpa using ih acc

/-- First-seen deduplication never creates duplicates. -/
lemma dedupLoop_nodup :
    ∀ (l acc : List String), acc.Nodup → (dedupLoop l acc).Nodup := by
  intro l
  induction l with
  | nil => intro acc h; exact h
  | cons x rest ih =>
    intro acc h
    rw [dedupLoop_cons]
    by_cases hx : x ∈ acc
    · have hc : acc.contains x = true := List.elem_iff.2 hx
      rw [hc]
      simpa using ih acc h
    · have hc : acc.contains x = false := by simpa using hx
      rw [hc]
      simp only [Bool.false_eq_true, if_false]
      refine ih (acc ++ [x]) ?_
      rw [List.nodup_append]
      exact ⟨h, List.nodup_singleton x, by simpa using hx⟩

/-- Every output of first-seen deduplication comes from the input or
the accumulator. -/
lemma dedupLoop_forall (p : String → Prop) :
    ∀ (l acc : List String), (∀ u ∈ acc, p u) → (∀ u ∈ l, p u) →
      ∀ u ∈ dedupLoop l acc, p u := by
  intro l
  induction l with
  | nil => intro acc ha _ u hu; exact ha u hu
  | cons x rest ih =>
    intro acc ha hl u hu
    rw [dedupLoop_cons] at hu
    by_cases hx : x ∈ acc
    · have hc : acc.contains x = true := List.elem_iff.2 hx
      rw [hc] at hu
      simp only [if_pos] at hu
      exact ih acc ha (fun v hv => hl v (List.mem_cons_of_mem _ hv)) u hu
    · have hc : acc.contains x = false := by simpa using hx
      rw [hc] at hu
      simp only [Bool.false_eq_true, if_false] at hu
      refine ih (acc ++ [x]) ?_
        (fun v hv => hl v (List.mem_cons_of_mem _ hv)) u hu
      intro v hv
      rcases List.mem_append.1 hv with hv | hv
      · exact ha v hv
      · rcases List.mem_singleton.1 hv with rfl
        exact hl v (List.mem_cons_self _ _)

/-- What passing the discoverer's filter means, unfolded. -/
lemma keepLink_spec (url : String) (h : keepLink url = true) :
    goStarts url "https://gasetten.se/" = true
    ∧ 2 ≤ (articleParts url).length := by
  unfold keepLink at h
  simp only [Bool.and_eq_true, decide_eq_true_eq] at h
  exact ⟨h.1.1, h.2⟩

/-- Every status rank is at most 3. -/
lemma statusRank_le_three (s : ProgressStatus) : statusRank s ≤ 3 := by
  cases s <;> simp [statusRank]

/-- A list of scraping-status events is rank-monotone. -/
lemma chain'_of_all_scraping (l : List ProgressUpdate)
    (h : ∀ e ∈ l, e.status = ProgressStatus.scraping) :
    List.Chain' (fun a b => statusRank a.status ≤ statusRank b.status)
      l := by
  induction l with
  | nil => exact List.chain'_nil
  | cons x t ih =>
    cases t with
    | nil => exact List.chain'_singleton x
    | cons y t' =>
      rw [List.chain'_cons]
      refine ⟨?_, ih fun e he => h e (List.mem_cons_of_mem _ he)⟩
      rw [h x (List.mem_cons_self _ _),
        h y (List.mem_cons_of_mem _ (List.mem_cons_self _ _))]

/-- An element named by `getLast?` is a member. -/
lemma mem_of_mem_getLast? {α : Type} {l : List α} {x : α}
    (h : x ∈ l.getLast?) : x ∈ l := by
  rcases List.mem_getLast?_eq_getLast h with ⟨hne, rfl⟩
  exact List.getLast_mem hne

/-- Per-link loop invariant for the current-item index: prefixing the
entering snapshot, the emitted indices form a non-decreasing chain, and
every emitted index is at most the announced total. -/
lemma scrapeLoop_ci (env : ScrapeEnv) (total : Nat) :
    ∀ (rest : List String) (i count : Nat) (pt : ProgressTracker),
      pt.current.currentItem ≤ i → i + rest.length ≤ total →
      List.Chain' (fun a b => a.currentItem ≤ b.currentItem)
        (pt.current :: (scrapeLoop env total rest i count pt).trace)
      ∧ ∀ e ∈ (scrapeLoop env total rest i count pt).trace,
          e.currentItem ≤ total := by
  intro rest
  induction rest with
  | nil =>
    intro i count pt h1 h2
    exact ⟨List.chain'_singleton _, by simp [scrapeLoop]⟩
  | cons link rest' ih =>
    intro i count pt h1 h2
    have hlen : (link :: rest').length = rest'.length + 1 := rfl
    have h2' : i + 1 + rest'.length ≤ total := by omega
    have hi : i + 1 ≤ total := by omega
    have hit : i ≤ total := by omega
    cases hcd : env.ctxDoneAt i with
    | true =>
      simp only [scrapeLoop, hcd, if_true]
      refine ⟨List.chain'_cons.2 ⟨?_, List.chain'_singleton _⟩, ?_⟩
      · exact Nat.le_refl _
      · intro e he
        rcases List.mem_singleton.1 he with rfl
        exact Nat.le_trans h1 hit
    | false =>
      simp only [scrapeLoop, hcd, Bool.false_eq_true, if_false]
      split
      · dsimp only
        obtain ⟨hch, hb⟩ := ih (i + 1) count
          (pt.updateProgress env.now (i + 1) total (processingMsg i total))
          (Nat.le_refl _) h2'
        refine ⟨List.chain'_cons.2 ⟨?_, hch⟩, ?_⟩
        · exact Nat.le_trans h1 (Nat.le_succ i)
        · intro e he
          rcases List.mem_cons.1 he with rfl | he
          · exact hi
          · exact hb e he
      · dsimp only
        obtain ⟨hch, hb⟩ := ih (i + 1) count
          ((pt.updateProgress env.now (i + 1) total
              (processingMsg i total)).updateProgress env.now (i + 1)
            total (skipMsg i total))
          (Nat.le_refl _) h2'
        refine ⟨List.chain'_cons.2 ⟨?_, List.chain'_cons.2 ⟨?_, hch⟩⟩, ?_⟩
        · exact Nat.le_trans h1 (Nat.le_succ i)
        · exact Nat.le_refl _
        · intro e he
          rcases List.mem_cons.1 he with rfl | he
          · exact hi
          rcases List.mem_cons.1 he with rfl | he
          · exact hi
          · exact hb e he
      · split
        · dsimp only
          obtain ⟨hch, hb⟩ := ih (i + 1) count
            (pt.updateProgress env.now (i + 1) total
              (processingMsg i total))
            (Nat.le_refl _) h2'
          refine ⟨List.chain'_cons.2 ⟨?_, hch⟩, ?_⟩
          · exact Nat.le_trans h1 (Nat.le_succ i)
          · intro e he
            rcases List.mem_cons.1 he with rfl | he
            · exact hi
            · exact hb e he
        · split
          · dsimp only
            obtain ⟨hch, hb⟩ := ih (i + 1) count
              (pt.updateProgress env.now (i + 1) total
                (processingMsg i total))
              (Nat.le_refl _) h2'
            refine ⟨List.chain'_cons.2 ⟨?_, hch⟩, ?_⟩
            · exact Nat.le_trans h1 (Nat.le_succ i)
            · intro e he
              rcases List.mem_cons.1 he with rfl | he
              · exact hi
              · exact hb e he
          · dsimp only
            rename_i article newId heq
            obtain ⟨hch, hb⟩ := ih (i + 1) (count + 1)
              ((pt.updateProgress env.now (i + 1) total
                  (processingMsg i total)).update env.now
                (savedUpd i total (count + 1) newId env.now))
              (Nat.le_refl _) h2'
            refine ⟨List.chain'_cons.2 ⟨?_, List.chain'_cons.2 ⟨?_, hch⟩⟩, ?_⟩
            · exact Nat.le_trans h1 (Nat.le_succ i)
            · exact Nat.le_refl _
            · intro e he
              rcases List.mem_cons.1 he with rfl | he
              · exact hi
              rcases List.mem_cons.1 he with rfl | he
              · exact hi
              · exact hb e he

/-- Per-link loop invariant for statuses: entered with a `scraping`
snapshot, either the loop runs to the end — it does not report
cancellation and every emitted event is a `scraping` event — or it was
cancelled, and the trace is some `scraping` events followed by exactly
one final `cancelled` event. -/
lemma scrapeLoop_status (env : ScrapeEnv) (total : Nat) :
    ∀ (rest : List String) (i count : Nat) (pt : ProgressTracker),
      pt.current.status = ProgressStatus.scraping →
      ((scrapeLoop env total rest i count pt).cancelled = false
        ∧ ∀ e ∈ (scrapeLoop env total rest i count pt).trace,
            e.status = ProgressStatus.scraping)
      ∨ ((scrapeLoop env total rest i count pt).cancelled = true
        ∧ ∃ pre lastE,
            (scrapeLoop env total rest i count pt).trace = pre ++ [lastE]
            ∧ (∀ e ∈ pre, e.status = ProgressStatus.scraping)
            ∧ lastE.status = ProgressStatus.cancelled) := by
  intro rest
  induction rest with
  | nil =>
    intro i count pt hst
    exact Or.inl ⟨rfl, by simp [scrapeLoop]⟩
  | cons link rest' ih =>
    intro i count pt hst
    cases hcd : env.ctxDoneAt i with
    | true =>
      simp only [scrapeLoop, hcd, if_true]
      right
      refine ⟨?_, [],
        (pt.updateStatus env.now ProgressStatus.cancelled
          (cancelMsg count)).current, ?_, ?_, ?_⟩
      · trivial
      · rfl
      · intro e he
        exact absurd he (List.not_mem_nil e)
      · rfl
    | false =>
      simp only [scrapeLoop, hcd, Bool.false_eq_true, if_false]
      split
      · dsimp only
        rcases ih (i + 1) count
            (pt.updateProgress env.now (i + 1) total (processingMsg i total))
            hst with ⟨hc, hall⟩ | ⟨hc, pre, lastE, htr, hpre, hlast⟩
        · refine Or.inl ⟨hc, ?_⟩
          intro e he
          rcases List.mem_cons.1 he with rfl | he
          · exact hst
          · exact hall e he
        · refine Or.inr ⟨hc, _ :: pre, lastE, by rw [htr]; rfl, ?_, hlast⟩
          intro e he
          rcases List.mem_cons.1 he with rfl | he
          · exact hst
          · exact hpre e he
      · dsimp only
        rcases ih (i + 1) count
            ((pt.updateProgress env.now (i + 1) total
                (processingMsg i total)).updateProgress env.now (i + 1)
              total (skipMsg i total))
            hst with ⟨hc, hall⟩ | ⟨hc, pre, lastE, htr, hpre, hlast⟩
        · refine Or.inl ⟨hc, ?_⟩
          intro e he
          rcases List.mem_cons.1 he with rfl | he
          · exact hst
          rcases List.mem_cons.1 he with rfl | he
          · exact hst
          · exact hall e he
        · refine Or.inr ⟨hc, _ :: _ :: pre, lastE, by rw [htr]; rfl, ?_, hlast⟩
          intro e he
          rcases List.mem_cons.1 he with rfl | he
          · exact hst
          rcases List.mem_cons.1 he with rfl | he
          · exact hst
          · exact hpre e he
      · split
        · dsimp only
          rcases ih (i + 1) count
              (pt.updateProgress env.now (i + 1) total
                (processingMsg i total))
              hst with ⟨hc, hall⟩ | ⟨hc, pre, lastE, htr, hpre, hlast⟩
          · refine Or.inl ⟨hc, ?_⟩
            intro e he
            rcases List.mem_cons.1 he with rfl | he
            · exact hst
            · exact hall e he
          · refine Or.inr ⟨hc, _ :: pre, lastE, by rw [htr]; rfl, ?_, hlast⟩
            intro e he
            rcases List.mem_cons.1 he with rfl | he
            · exact hst
            · exact hpre e he
        · split
          · dsimp only
            rcases ih (i + 1) count
                (pt.updateProgress env.now (i + 1) total
                  (processingMsg i total))
                hst with ⟨hc, hall⟩ | ⟨hc, pre, lastE, htr, hpre, hlast⟩
            · refine Or.inl ⟨hc, ?_⟩
              intro e he
              rcases List.mem_cons.1 he with rfl | he
              · exact hst
              · exact hall e he
            · refine Or.inr ⟨hc, _ :: pre, lastE, by rw [htr]; rfl, ?_, hlast⟩
              intro e he
              rcases List.mem_cons.1 he with rfl | he
              · exact hst
              · exact hpre e he
          · dsimp only
            rename_i article newId heq
            rcases ih (i + 1) (count + 1)
                ((pt.updateProgress env.now (i + 1) total
                    (processingMsg i total)).update env.now
                  (savedUpd i total (count + 1) newId env.now))
                rfl with ⟨hc, hall⟩ | ⟨hc, pre, lastE, htr, hpre, hlast⟩
            · refine Or.inl ⟨hc, ?_⟩
              intro e he
              rcases List.mem_cons.1 he with rfl | he
              · exact hst
              rcases List.mem_cons.1 he with rfl | he
              · exact rfl
              · exact hall e he
            · refine Or.inr ⟨hc, _ :: _ :: pre, lastE, by rw [htr]; rfl, ?_, hlast⟩
              intro e he
              rcases List.mem_cons.1 he with rfl | he
              · exact hst
              rcases List.mem_cons.1 he with rfl | he
              · exact rfl
              · exact hpre e he

/-! ### Claim theorems -/

/-- C7: subscribing delivers the current snapshot as the new channel's
first message, and it is still the first message after any sequence of
later updates — a subscriber joining mid-run never starts from an
empty or default state. -/
theorem subscribe_delivers_snapshot (pt : ProgressTracker)
    (upds : List (GoTime × ProgressUpdate)) :
    (pt.subscribe.1.listeners.getD pt.subscribe.2 [] = [pt.current])
    ∧ ((upds.foldl (fun st p => st.update p.1 p.2)
          pt.subscribe.1).listeners.getD pt.subscribe.2 []).head? =
        some pt.current := by
  have hsub : pt.subscribe.1.listeners[pt.subscribe.2]? =
      some [pt.current] := by
    unfold ProgressTracker.subscribe
    simp [List.getElem?_append_right (Nat.le_refl _)]
  constructor
  · simp [List.getD_eq_getElem?_getD, hsub]
  · obtain ⟨rest, hrest⟩ :=
      foldl_head_stable upds pt.subscribe.1 pt.subscribe.2 pt.current
        ⟨[], hsub⟩
    simp [List.getD_eq_getElem?_getD, hrest]

/-- C9 counterexample: the handler's `IsActive` check and the spawned
batch's `SetActive(true)` are separate, unsynchronized steps, so two
requests that both arrive before either spawned batch has marked the
tracker active both pass the guard, both get the started response, and
two session-driving batch tasks end up running concurrently. -/
theorem concurrent_start_cex :
    (handleScrape initialSys).2 = ScrapeResponse.started
    ∧ (handleScrape (handleScrape initialSys).1).2 =
        ScrapeResponse.started
    ∧ (List.foldl stepEvent initialSys
        [ServerEvent.scrapeRequest, ServerEvent.scrapeRequest,
         ServerEvent.batchActivate, ServerEvent.batchActivate]).running =
        2 :=
  ⟨rfl, rfl, rfl⟩

/-- C9 (amended): a request that observes the active flag set is
answered with the already-in-progress notice and spawns nothing; and in
executions where no request is checked while a spawned batch has yet to
mark the tracker active — a serialization the source does not itself
enforce — at most one batch task is ever live.  Without that proviso
the guard admits concurrent batches, as the counterexample shows. -/
theorem single_active_batch (s : SysState) (evs : List ServerEvent)
    (s' : SysState) (h : s.active = true)
    (hg : guardedRun initialSys evs = some s') :
    handleScrape s = (s, ScrapeResponse.alreadyInProgress)
    ∧ s'.pending + s'.running ≤ 1
    ∧ s'.running ≤ 1 := by
  have hinv := guardedRun_inv evs initialSys s'
    (by simp [sysInv, initialSys]) hg
  refine ⟨by simp [handleScrape, h], hinv.1, ?_⟩
  have := hinv.1
  omega

/-- C9 witness: rejection while active, and the guarded bound evaluated
on a concrete serialized request/activate/finish/request/activate
sequence. -/
theorem single_active_batch_witness :
    (SysState.mk true 0 1).active = true
    ∧ guardedRun initialSys
        [ServerEvent.scrapeRequest, ServerEvent.batchActivate,
         ServerEvent.batchFinish, ServerEvent.scrapeRequest,
         ServerEvent.batchActivate] = some (SysState.mk true 0 1)
    ∧ (handleScrape (SysState.mk true 0 1) =
        (SysState.mk true 0 1, ScrapeResponse.alreadyInProgress)
      ∧ (SysState.mk true 0 1).pending +
          (SysState.mk true 0 1).running ≤ 1
      ∧ (SysState.mk true 0 1).running ≤ 1) :=
  ⟨rfl, rfl,
   single_active_batch (SysState.mk true 0 1)
     [ServerEvent.scrapeRequest, ServerEvent.batchActivate,
      ServerEvent.batchFinish, ServerEvent.scrapeRequest,
      ServerEvent.batchActivate]
     (SysState.mk true 0 1) rfl rfl⟩

set_option maxRecDepth 8000 in
/-- C1: with three discovered links where extraction fails on the
second item only, the run is not aborted — the third item is still
processed and persisted, the terminal event is `completed` with two
articles added, and the returned count excludes the failed item. -/
theorem per_item_failure_isolated :
    outC1.count = 2 ∧ outC1.err = none
    ∧ (⟨ProgressStatus.scraping, "Processing article 3/3...",
        3, 3, 1, 5, ⟨1⟩⟩ : ProgressUpdate) ∈ outC1.trace
    ∧ (⟨ProgressStatus.scraping, "Saved article 3/3 (2 new)",
        3, 3, 2, 9, ⟨1⟩⟩ : ProgressUpdate) ∈ outC1.trace
    ∧ outC1.trace.getLast? = some ⟨ProgressStatus.completed,
        "Completed! Added 2 new articles.", 3, 3, 2, 0, ⟨1⟩⟩ := by
  have htr : outC1.trace =
      [⟨ProgressStatus.starting, "Initializing browser...",
        0, 0, 0, 0, ⟨1⟩⟩,
       ⟨ProgressStatus.loggingIn, "Logging into Gasetten...",
        0, 0, 0, 0, ⟨1⟩⟩,
       ⟨ProgressStatus.scraping, "Loading article category page...",
        0, 0, 0, 0, ⟨1⟩⟩,
       ⟨ProgressStatus.scraping, "Extracting article links...",
        0, 0, 0, 0, ⟨1⟩⟩,
       ⟨ProgressStatus.scraping, "Found 3 articles, starting to scrape...",
        0, 3, 0, 0, ⟨1⟩⟩,
       ⟨ProgressStatus.scraping, "Processing article 1/3...",
        1, 3, 0, 0, ⟨1⟩⟩,
       ⟨ProgressStatus.scraping, "Saved article 1/3 (1 new)",
        1, 3, 1, 5, ⟨1⟩⟩,
       ⟨ProgressStatus.scraping, "Processing article 2/3...",
        2, 3, 1, 5, ⟨1⟩⟩,
       ⟨ProgressStatus.scraping, "Processing article 3/3...",
        3, 3, 1, 5, ⟨1⟩⟩,
       ⟨ProgressStatus.scraping, "Saved article 3/3 (2 new)",
        3, 3, 2, 9, ⟨1⟩⟩,
       ⟨ProgressStatus.completed, "Completed! Added 2 new articles.",
        3, 3, 2, 0, ⟨1⟩⟩] := rfl
  refine ⟨rfl, rfl, ?_, ?_, ?_⟩
  · rw [htr]; simp
  · rw [htr]; simp
  · rw [htr]; rfl

set_option maxRecDepth 8000 in
/-- C2: with five discovered links and the cancellation signal set from
the second iteration on, the run emits a terminal `cancelled` event
carrying one article added, processes no item beyond the first (the
emitted item indices never reach 2), and returns the partial count 1
together with the cancellation error. -/
theorem cancellation_partial_count :
    outC2.count = 1 ∧ outC2.err = some RunError.cancelled
    ∧ outC2.trace.getLast? = some ⟨ProgressStatus.cancelled,
        "Operation cancelled. Scraped 1 articles before cancellation.",
        1, 5, 1, 5, ⟨1⟩⟩
    ∧ outC2.trace.map ProgressUpdate.currentItem =
        [0, 0, 0, 0, 0, 1, 1, 1] := by
  have htr : outC2.trace =
      [⟨ProgressStatus.starting, "Initializing browser...",
        0, 0, 0, 0, ⟨1⟩⟩,
       ⟨ProgressStatus.loggingIn, "Logging into Gasetten...",
        0, 0, 0, 0, ⟨1⟩⟩,
       ⟨ProgressStatus.scraping, "Loading article category page...",
        0, 0, 0, 0, ⟨1⟩⟩,
       ⟨ProgressStatus.scraping, "Extracting article links...",
        0, 0, 0, 0, ⟨1⟩⟩,
       ⟨ProgressStatus.scraping, "Found 5 articles, starting to scrape...",
        0, 5, 0, 0, ⟨1⟩⟩,
       ⟨ProgressStatus.scraping, "Processing article 1/5...",
        1, 5, 0, 0, ⟨1⟩⟩,
       ⟨ProgressStatus.scraping, "Saved article 1/5 (1 new)",
        1, 5, 1, 5, ⟨1⟩⟩,
       ⟨ProgressStatus.cancelled,
        "Operation cancelled. Scraped 1 articles before cancellation.",
        1, 5, 1, 5, ⟨1⟩⟩] := rfl
  exact ⟨rfl, rfl, by rw [htr]; rfl, by rw [htr]; rfl⟩

set_option maxRecDepth 8000 in
/-- C3: with three discovered links where the store reports the second
URL as already present, the run persists exactly two new records,
emits exactly one skipped event — for the second item — and the
terminal `completed` event reports two articles added. -/
theorem dedup_skip_run :
    outC3.count = 2 ∧ outC3.err = none
    ∧ (outC3.trace.countP fun e =>
        goEnds e.message "already exists, skipping...") = 1
    ∧ (⟨ProgressStatus.scraping, "Article 2/3 already exists, skipping...",
        2, 3, 1, 5, ⟨1⟩⟩ : ProgressUpdate) ∈ outC3.trace
    ∧ (⟨ProgressStatus.scraping, "Saved article 1/3 (1 new)",
        1, 3, 1, 5, ⟨1⟩⟩ : ProgressUpdate) ∈ outC3.trace
    ∧ (⟨ProgressStatus.scraping, "Saved article 3/3 (2 new)",
        3, 3, 2, 9, ⟨1⟩⟩ : ProgressUpdate) ∈ outC3.trace
    ∧ outC3.trace.getLast? = some ⟨ProgressStatus.completed,
        "Completed! Added 2 new articles.", 3, 3, 2, 0, ⟨1⟩⟩ := by
  have htr : outC3.trace =
      [⟨ProgressStatus.starting, "Initializing browser...",
        0, 0, 0, 0, ⟨1⟩⟩,
       ⟨ProgressStatus.loggingIn, "Logging into Gasetten...",
        0, 0, 0, 0, ⟨1⟩⟩,
       ⟨ProgressStatus.scraping, "Loading article category page...",
        0, 0, 0, 0, ⟨1⟩⟩,
       ⟨ProgressStatus.scraping, "Extracting article links...",
        0, 0, 0, 0, ⟨1⟩⟩,
       ⟨ProgressStatus.scraping, "Found 3 articles, starting to scrape...",
        0, 3, 0, 0, ⟨1⟩⟩,
       ⟨ProgressStatus.scraping, "Processing article 1/3...",
        1, 3, 0, 0, ⟨1⟩⟩,
       ⟨ProgressStatus.scraping, "Saved article 1/3 (1 new)",
        1, 3, 1, 5, ⟨1⟩⟩,
       ⟨ProgressStatus.scraping, "Processing article 2/3...",
        2, 3, 1, 5, ⟨1⟩⟩,
       ⟨ProgressStatus.scraping, "Article 2/3 already exists, skipping...",
        2, 3, 1, 5, ⟨1⟩⟩,
       ⟨ProgressStatus.scraping, "Processing article 3/3...",
        3, 3, 1, 5, ⟨1⟩⟩,
       ⟨ProgressStatus.scraping, "Saved article 3/3 (2 new)",
        3, 3, 2, 9, ⟨1⟩⟩,
       ⟨ProgressStatus.completed, "Completed! Added 2 new articles.",
        3, 3, 2, 0, ⟨1⟩⟩] := rfl
  refine ⟨rfl, rfl, by rw [htr]; rfl, ?_, ?_, ?_, by rw [htr]; rfl⟩
  · rw [htr]; simp
  · rw [htr]; simp
  · rw [htr]; simp

set_option maxRecDepth 8000 in
/-- C4 counterexample: the segment check of `extractArticleLinks`
counts empty segments, so a same-origin URL with an empty path segment
is returned although it has only one non-empty path segment — the
claimed "at least two non-empty path segments" does not hold. -/
theorem discoverer_nonempty_segments_cex :
    extractArticleLinks [some "https://gasetten.se//x"] =
      ["https://gasetten.se//x"]
    ∧ nonEmptySegs "https://gasetten.se//x" = 1 := by
  constructor <;> rfl

/-- C4 (amended): the discoverer returns the normalized, filtered
candidate URLs deduplicated in first-seen order, without duplicates,
and every returned URL is under the configured origin and splits into
at least two path segments — segments that may be empty, since the
source counts the raw `strings.Split` pieces. -/
theorem discoverer_links_spec (hrefs : List (Option String)) :
    extractArticleLinks hrefs = firstSeenDedup (candidateLinks hrefs)
    ∧ (extractArticleLinks hrefs).Nodup
    ∧ ∀ u ∈ extractArticleLinks hrefs,
        goStarts u "https://gasetten.se/" = true
        ∧ 2 ≤ (articleParts u).length := by
  have heq : extractArticleLinks hrefs =
      firstSeenDedup (candidateLinks hrefs) :=
    extractLoop_eq_dedupLoop hrefs []
  refine ⟨heq, ?_, ?_⟩
  · rw [heq]
    exact dedupLoop_nodup (candidateLinks hrefs) [] List.nodup_nil
  · rw [heq]
    refine dedupLoop_forall _ (candidateLinks hrefs) [] (by simp) ?_
    intro u hu
    exact keepLink_spec u (List.mem_filter.1 hu).2

set_option maxRecDepth 8000 in
/-- C4 witness: the amended discoverer properties evaluated on a
concrete page with a relative href, its absolute duplicate, a missing
href and a denylisted link. -/
theorem discoverer_links_spec_witness :
    extractArticleLinks
        [some "/malmo-ff/a/", some "https://gasetten.se/malmo-ff/a/",
         none, some "https://gasetten.se/category/x/"] =
      firstSeenDedup (candidateLinks
        [some "/malmo-ff/a/", some "https://gasetten.se/malmo-ff/a/",
         none, some "https://gasetten.se/category/x/"])
    ∧ (extractArticleLinks
        [some "/malmo-ff/a/", some "https://gasetten.se/malmo-ff/a/",
         none, some "https://gasetten.se/category/x/"]).Nodup
    ∧ ∀ u ∈ extractArticleLinks
        [some "/malmo-ff/a/", some "https://gasetten.se/malmo-ff/a/",
         none, some "https://gasetten.se/category/x/"],
        goStarts u "https://gasetten.se/" = true
        ∧ 2 ≤ (articleParts u).length :=
  discoverer_links_spec
    [some "/malmo-ff/a/", some "https://gasetten.se/malmo-ff/a/",
     none, some "https://gasetten.se/category/x/"]

/-- C5 counterexample: when readability produces an empty body, the
extractor sets the HTML body to the empty string instead of leaving it
unset, so the claimed absent-vs-empty policy does not hold for the body
fields. -/
theorem content_empty_string_cex :
    (buildArticle "https://gasetten.se/malmo-ff/a/"
      ⟨"", "", "", "", none⟩ none).contentHTML = some ""
    ∧ (buildArticle "https://gasetten.se/malmo-ff/a/"
        ⟨"", "", "", "", none⟩ none).contentText = some "" :=
  ⟨rfl, rfl⟩

/-- C5 (amended): title, author and published timestamp obey the
absent-vs-empty policy — they stay unset when extraction yields nothing
and are never the empty string — but the HTML and text bodies are
always set, to the readability output verbatim, possibly empty. -/
theorem optional_fields_policy (articleURL : String)
    (r : ReadabilityResult) (manual : Option GoTime) :
    ((buildArticle articleURL r manual).title = none ↔ r.title = "")
    ∧ (buildArticle articleURL r manual).title ≠ some ""
    ∧ ((buildArticle articleURL r manual).author = none ↔ r.byline = "")
    ∧ (buildArticle articleURL r manual).author ≠ some ""
    ∧ (r.publishedTime = none → manual = none →
        (buildArticle articleURL r manual).publishedAt = none)
    ∧ (buildArticle articleURL r manual).contentHTML = some r.content
    ∧ (buildArticle articleURL r manual).contentText =
        some r.textContent := by
  refine ⟨?_, ?_, ?_, ?_, ?_, (buildArticle_bodies _ _ _).1,
    (buildArticle_bodies _ _ _).2⟩
  · rw [buildArticle_title]; split_ifs with h <;> simp [h]
  · rw [buildArticle_title]; split_ifs with h <;> simp [h]
  · rw [buildArticle_author]; split_ifs with h <;> simp [h]
  · rw [buildArticle_author]; split_ifs with h <;> simp [h]
  · intro hp hm; rw [buildArticle_publishedAt, hp, hm]

/-- C5 witness: the amended policy evaluated on a concrete readability
result with nothing extractable. -/
theorem optional_fields_policy_witness :
    (ReadabilityResult.publishedTime ⟨"", "", "c", "t", none⟩ = none)
    ∧ (buildArticle "u" ⟨"", "", "c", "t", none⟩ none).publishedAt = none
    ∧ ((buildArticle "u" ⟨"", "", "c", "t", none⟩ none).title = none ↔
        ReadabilityResult.title ⟨"", "", "c", "t", none⟩ = "") :=
  ⟨rfl,
   (optional_fields_policy "u" ⟨"", "", "c", "t", none⟩ none).2.2.2.2.1
     rfl rfl,
   (optional_fields_policy "u" ⟨"", "", "c", "t", none⟩ none).1⟩

/-- C6: the published timestamp is chosen with strict precedence — the
readability time wins whenever present and non-zero; otherwise the
manual scan runs, and it is the first selector (in the fixed order)
whose element yields a parse, where each text parse is itself the first
success over the fixed layout list; when nothing parses the published
timestamp is `none`, never a default. -/
theorem published_date_precedence (parse : String → String → Option GoTime)
    (find : String → Option PageElem) (articleURL : String)
    (r : ReadabilityResult) :
    (∀ t, r.publishedTime = some t → t.isZero = false →
      (scrapeArticleModel parse find articleURL r).publishedAt = some t)
    ∧ ((r.publishedTime = none
        ∨ ∃ t, r.publishedTime = some t ∧ t.isZero = true) →
      (scrapeArticleModel parse find articleURL r).publishedAt =
        extractDate parse find)
    ∧ extractDate parse find =
        firstSome (dateSelectors.map fun sel =>
          (find sel).bind (tryElem parse))
    ∧ (∀ (fmts : List String) (s : String),
        tryFormats parse fmts s = firstSome (fmts.map fun f => parse f s))
    ∧ (extractDate parse find = none ↔
        ∀ sel ∈ dateSelectors, (find sel).bind (tryElem parse) = none) := by
  refine ⟨?_, ?_, extractDateLoop_eq_firstSome parse find dateSelectors,
    fun fmts s => tryFormats_eq_firstSome parse s fmts, ?_⟩
  · intro t ht hz
    unfold scrapeArticleModel
    rw [buildArticle_publishedAt, ht]
    simp [hz]
  · intro h
    unfold scrapeArticleModel
    rw [buildArticle_publishedAt]
    rcases h with h | ⟨t, ht, hz⟩
    · rw [h]
    · rw [ht]; simp [hz]
  · rw [extractDate, extractDateLoop_eq_firstSome, firstSome_eq_none]
    constructor
    · intro h sel hs
      exact h _ (List.mem_map_of_mem _ hs)
    · intro h o ho
      obtain ⟨sel, hs, rfl⟩ := List.mem_map.1 ho
      exact h sel hs

/-- C6 witness: precedence and fallback evaluated at concrete inputs —
a non-zero readability time wins, and with no readability time the
manual scan's first successful selector parse is returned. -/
theorem published_date_precedence_witness :
    (ReadabilityResult.publishedTime ⟨"T", "B", "c", "t", some ⟨5⟩⟩ =
      some ⟨5⟩)
    ∧ GoTime.isZero ⟨5⟩ = false
    ∧ (scrapeArticleModel (fun _ _ => none) (fun _ => none) "u"
        ⟨"T", "B", "c", "t", some ⟨5⟩⟩).publishedAt = some ⟨5⟩
    ∧ (extractDate (fun _ _ => none) (fun _ => none) = none ↔
        ∀ sel ∈ dateSelectors,
          (((fun _ => none : String → Option PageElem) sel).bind
            (tryElem (fun _ _ => none))) = none) :=
  ⟨rfl, rfl,
   (published_date_precedence (fun _ _ => none) (fun _ => none) "u"
     ⟨"T", "B", "c", "t", some ⟨5⟩⟩).1 ⟨5⟩ rfl rfl,
   (published_date_precedence (fun _ _ => none) (fun _ => none) "u"
     ⟨"T", "B", "c", "t", some ⟨5⟩⟩).2.2.2.2⟩

/-- The executable check agrees with the chain property. -/
lemma ciMonotone_iff :
    ∀ l : List ProgressUpdate,
      ciMonotone l = true ↔
        List.Chain' (fun a b => a.currentItem ≤ b.currentItem) l := by
  intro l
  induction l with
  | nil => simp [ciMonotone]
  | cons a t ih =>
    cases t with
    | nil => simp [ciMonotone]
    | cons b t' =>
      simp [ciMonotone, Bool.and_eq_true, decide_eq_true_iff, ih,
        List.chain'_cons]

set_option maxRecDepth 8000 in
/-- C8 counterexample: the tracker is never reset between runs, so a
second run on the same tracker first emits events that inherit the
previous run's final item index and then drops back to 0 when the new
count is announced — the emitted item indices of that single run are
not monotone. -/
theorem second_run_current_item_cex :
    ¬ List.Chain' (fun a b => a.currentItem ≤ b.currentItem)
      (scrapeArticles envOneLink
        (scrapeArticles envOneLink
          (newProgressTracker ⟨0⟩)).tracker).trace := by
  intro h
  have hb := (ciMonotone_iff _).2 h
  have hf : ciMonotone
      (scrapeArticles envOneLink
        (scrapeArticles envOneLink
          (newProgressTracker ⟨0⟩)).tracker).trace = false := rfl
  rw [hf] at hb
  exact Bool.false_ne_true hb

/-- C8 (amended): within one run the status only moves forward through
starting → logging_in → scraping → terminal and no terminal event is
followed by another event; the emitted current-item indices are
monotonically non-decreasing provided the run starts from a tracker
whose snapshot has item index 0 (as a fresh tracker does) — a later run
reuses the previous run's index in its pre-discovery events before
resetting it, which is the one violation of the original claim. -/
theorem run_trace_monotone (env : ScrapeEnv) (pt0 : ProgressTracker)
    (h0 : pt0.current.currentItem = 0) :
    List.Chain' (fun a b => statusRank a.status ≤ statusRank b.status)
      (scrapeArticles env pt0).trace
    ∧ List.Chain' (fun a b => a.currentItem ≤ b.currentItem)
      (scrapeArticles env pt0).trace
    ∧ ∀ e ∈ (scrapeArticles env pt0).trace.dropLast,
        isTerminal e.status = false := by
  cases hb : env.browserOk with
  | false =>
    simp only [scrapeArticles, hb, Bool.false_eq_true, if_false]
    refine ⟨?_, ?_, ?_⟩
    · exact List.chain'_cons.2 ⟨show (0 : Nat) ≤ 3 by omega,
        List.chain'_singleton _⟩
    · exact List.chain'_cons.2 ⟨Nat.le_refl _, List.chain'_singleton _⟩
    · intro e he
      rcases List.mem_singleton.1 he with rfl
      rfl
  | true =>
  cases hl : env.loginOk with
  | false =>
    simp only [scrapeArticles, hb, hl, Bool.false_eq_true, if_true,
      if_false]
    refine ⟨?_, ?_, ?_⟩
    · exact List.chain'_cons.2 ⟨show (0 : Nat) ≤ 1 by omega,
        List.chain'_cons.2 ⟨show (1 : Nat) ≤ 3 by omega,
          List.chain'_singleton _⟩⟩
    · exact List.chain'_cons.2 ⟨Nat.le_refl _,
        List.chain'_cons.2 ⟨Nat.le_refl _, List.chain'_singleton _⟩⟩
    · intro e he
      rcases List.mem_cons.1 he with rfl | he
      · rfl
      rcases List.mem_singleton.1 he with rfl
      rfl
  | true =>
  cases hcl : env.ctxDoneAfterLogin with
  | true =>
    simp only [scrapeArticles, hb, hl, hcl, if_true]
    refine ⟨?_, ?_, ?_⟩
    · exact List.chain'_cons.2 ⟨show (0 : Nat) ≤ 1 by omega,
        List.chain'_cons.2 ⟨show (1 : Nat) ≤ 3 by omega,
          List.chain'_singleton _⟩⟩
    · exact List.chain'_cons.2 ⟨Nat.le_refl _,
        List.chain'_cons.2 ⟨Nat.le_refl _, List.chain'_singleton _⟩⟩
    · intro e he
      rcases List.mem_cons.1 he with rfl | he
      · rfl
      rcases List.mem_singleton.1 he with rfl
      rfl
  | false =>
  cases hp : env.pageOk with
  | false =>
    simp only [scrapeArticles, hb, hl, hcl, hp, Bool.false_eq_true,
      if_true, if_false]
    refine ⟨?_, ?_, ?_⟩
    · exact List.chain'_cons.2 ⟨show (0 : Nat) ≤ 1 by omega,
        List.chain'_cons.2 ⟨show (1 : Nat) ≤ 2 by omega,
          List.chain'_cons.2 ⟨show (2 : Nat) ≤ 3 by omega,
            List.chain'_singleton _⟩⟩⟩
    · exact List.chain'_cons.2 ⟨Nat.le_refl _,
        List.chain'_cons.2 ⟨Nat.le_refl _,
          List.chain'_cons.2 ⟨Nat.le_refl _, List.chain'_singleton _⟩⟩⟩
    · intro e he
      rcases List.mem_cons.1 he with rfl | he
      · rfl
      rcases List.mem_cons.1 he with rfl | he
      · rfl
      rcases List.mem_singleton.1 he with rfl
      rfl
  | true =>
  cases hld : env.loadOk with
  | false =>
    simp only [scrapeArticles, hb, hl, hcl, hp, hld, Bool.false_eq_true,
      if_true, if_false]
    refine ⟨?_, ?_, ?_⟩
    · exact List.chain'_cons.2 ⟨show (0 : Nat) ≤ 1 by omega,
        List.chain'_cons.2 ⟨show (1 : Nat) ≤ 2 by omega,
          List.chain'_cons.2 ⟨show (2 : Nat) ≤ 3 by omega,
            List.chain'_singleton _⟩⟩⟩
    · exact List.chain'_cons.2 ⟨Nat.le_refl _,
        List.chain'_cons.2 ⟨Nat.le_refl _,
          List.chain'_cons.2 ⟨Nat.le_refl _, List.chain'_singleton _⟩⟩⟩
    · intro e he
      rcases List.mem_cons.1 he with rfl | he
      · rfl
      rcases List.mem_cons.1 he with rfl | he
      · rfl
      rcases List.mem_singleton.1 he with rfl
      rfl
  | true =>
    simp only [scrapeArticles, hb, hl, hcl, hp, hld, Bool.false_eq_true,
      if_true, if_false]
    set ptA := (pt0.setActive true).updateStatus env.now
      ProgressStatus.starting "Initializing browser..." with hA
    set ptB := ptA.updateStatus env.now ProgressStatus.loggingIn
      "Logging into Gasetten..." with hB
    set ptC := ptB.updateStatus env.now ProgressStatus.scraping
      "Loading article category page..." with hC
    set ptD := ptC.updateStatus env.now ProgressStatus.scraping
      "Extracting article links..." with hD
    set ptE := ptD.update env.now
      (foundUpd env.links.length env.now) with hE
    obtain ⟨hciChain, hciBound⟩ :=
      scrapeLoop_ci env env.links.length env.links 0 0 ptE
        (Nat.le_refl _) (le_of_eq (Nat.zero_add _))
    have hEci : ptE.current.currentItem = 0 := rfl
    have hEst : ptE.current.status = ProgressStatus.scraping := rfl
    rcases scrapeLoop_status env env.links.length env.links 0 0 ptE rfl
      with ⟨hc, hall⟩ | ⟨hc, pre', lastE, htr', hpre', hlast'⟩
    · -- loop ran to completion
      simp only [hc, Bool.false_eq_true, if_false]
      have hallE : ∀ e ∈ ptE.current ::
          (scrapeLoop env env.links.length env.links 0 0 ptE).trace,
          e.status = ProgressStatus.scraping := by
        intro e he
        rcases List.mem_cons.1 he with rfl | he
        · exact hEst
        · exact hall e he
      refine ⟨?_, ?_, ?_⟩
      · refine List.chain'_cons.2 ⟨show (0 : Nat) ≤ 1 by omega,
          List.chain'_cons.2 ⟨show (1 : Nat) ≤ 2 by omega,
            List.chain'_cons.2 ⟨show (2 : Nat) ≤ 2 by omega,
              List.chain'_cons.2 ⟨show (2 : Nat) ≤ 2 by omega, ?_⟩⟩⟩⟩
        refine List.chain'_append.2
          ⟨chain'_of_all_scraping _ hallE, List.chain'_singleton _, ?_⟩
        intro x hx y hy
        simp only [List.head?_cons, Option.mem_def, Option.some.injEq]
          at hy
        subst hy
        exact statusRank_le_three _
      · refine List.chain'_cons.2 ⟨Nat.le_refl _,
          List.chain'_cons.2 ⟨Nat.le_refl _,
            List.chain'_cons.2 ⟨Nat.le_refl _,
              List.chain'_cons.2 ⟨le_of_eq h0, ?_⟩⟩⟩⟩
        refine List.chain'_append.2
          ⟨hciChain, List.chain'_singleton _, ?_⟩
        intro x hx y hy
        simp only [List.head?_cons, Option.mem_def, Option.some.injEq]
          at hy
        subst hy
        rcases List.mem_cons.1 (mem_of_mem_getLast? hx) with rfl | hx
        · exact Nat.zero_le _
        · exact hciBound x hx
      · have hsplit :
            ([ptA.current, ptB.current, ptC.current, ptD.current,
              ptE.current] ++
              (scrapeLoop env env.links.length env.links 0 0 ptE).trace ++
              [((scrapeLoop env env.links.length env.links 0 0
                  ptE).tracker.update env.now
                (completedUpd env.links.length
                  (scrapeLoop env env.links.length env.links 0 0
                    ptE).count env.now)).current]).dropLast =
            [ptA.current, ptB.current, ptC.current, ptD.current,
              ptE.current] ++
              (scrapeLoop env env.links.length env.links 0 0 ptE).trace :=
          List.dropLast_concat ..
        rw [hsplit]
        intro e he
        rcases List.mem_append.1 he with he | he
        · rcases List.mem_cons.1 he with rfl | he
          · rfl
          rcases List.mem_cons.1 he with rfl | he
          · rfl
          rcases List.mem_cons.1 he with rfl | he
          · rfl
          rcases List.mem_cons.1 he with rfl | he
          · rfl
          rcases List.mem_singleton.1 he with rfl
          · rfl
        · rw [hall e he]
          rfl
    · -- loop was cancelled
      simp only [hc, if_true]
      refine ⟨?_, ?_, ?_⟩
      · refine List.chain'_cons.2 ⟨show (0 : Nat) ≤ 1 by omega,
          List.chain'_cons.2 ⟨show (1 : Nat) ≤ 2 by omega,
            List.chain'_cons.2 ⟨show (2 : Nat) ≤ 2 by omega,
              List.chain'_cons.2 ⟨show (2 : Nat) ≤ 2 by omega, ?_⟩⟩⟩⟩
        rw [htr']
        refine List.chain'_append.2
          ⟨chain'_of_all_scraping (ptE.current :: pre') ?_,
           List.chain'_singleton _, ?_⟩
        · intro e he
          rcases List.mem_cons.1 he with rfl | he
          · exact hEst
          · exact hpre' e he
        · intro x hx y hy
          simp only [List.head?_cons, Option.mem_def, Option.some.injEq]
            at hy
          subst hy
          rw [hlast']
          exact statusRank_le_three _
      · refine List.chain'_cons.2 ⟨Nat.le_refl _,
          List.chain'_cons.2 ⟨Nat.le_refl _,
            List.chain'_cons.2 ⟨Nat.le_refl _,
              List.chain'_cons.2 ⟨le_of_eq h0, hciChain⟩⟩⟩⟩
      · have hsplit :
            ([ptA.current, ptB.current, ptC.current, ptD.current,
              ptE.current] ++
              (scrapeLoop env env.links.length env.links 0 0 ptE).trace) =
            ([ptA.current, ptB.current, ptC.current, ptD.current,
              ptE.current] ++ pre') ++ [lastE] := by
          rw [htr']
          rfl
        rw [hsplit, List.dropLast_concat]
        intro e he
        rcases List.mem_append.1 he with he | he
        · rcases List.mem_cons.1 he with rfl | he
          · rfl
          rcases List.mem_cons.1 he with rfl | he
          · rfl
          rcases List.mem_cons.1 he with rfl | he
          · rfl
          rcases List.mem_cons.1 he with rfl | he
          · rfl
          rcases List.mem_singleton.1 he with rfl
          · rfl
        · rw [hpre' e he]
          rfl

/-- C8 witness: the amended invariant evaluated on a fresh tracker and
a concrete single-link run environment. -/
theorem run_trace_monotone_witness :
    (newProgressTracker ⟨0⟩).current.currentItem = 0
    ∧ (List.Chain'
        (fun a b => statusRank a.status ≤ statusRank b.status)
        (scrapeArticles envOneLink (newProgressTracker ⟨0⟩)).trace
      ∧ List.Chain' (fun a b => a.currentItem ≤ b.currentItem)
        (scrapeArticles envOneLink (newProgressTracker ⟨0⟩)).trace
      ∧ ∀ e ∈ (scrapeArticles envOneLink
            (newProgressTracker ⟨0⟩)).trace.dropLast,
          isTerminal e.status = false) :=
  ⟨rfl, run_trace_monotone envOneLink (newProgressTracker ⟨0⟩) rfl⟩

/-- C10: `update` replaces the whole snapshot with the given record,
refreshing only the timestamp — the result does not depend on the
previous snapshot, so fields left at their zero value are not merged —
while `updateStatus` and `updateProgress` preserve the other fields
exactly because they copy the current snapshot first. -/
theorem update_replaces_snapshot (pt pt' : ProgressTracker)
    (u : ProgressUpdate) (now : GoTime) (st : ProgressStatus)
    (msg : String) (cur total : Nat) :
    (pt.update now u).getCurrent = { u with timestamp := now }
    ∧ (pt.update now u).getCurrent = (pt'.update now u).getCurrent
    ∧ (pt.updateStatus now st msg).getCurrent =
        { pt.getCurrent with status := st, message := msg,
                             timestamp := now }
    ∧ (pt.updateProgress now cur total msg).getCurrent =
        { pt.getCurrent with currentItem := cur, totalItems := total,
                             message := msg, timestamp := now } :=
  ⟨rfl, rfl, rfl, rfl⟩

end Kiln
